import Mathlib

/-!
Verification of the agentic tool-orchestration core of the `leo-activation`
repository: the Gemini model engine (`src/agentic_models/gemini.py`), the
LLM router (`src/agentic_models/router.py`), and the agent-router
orchestration state machine used by `handle_message`.

Python dictionaries representing chat turns are embedded as structures with
optional fields; Python truthiness of strings/lists is made explicit; code
that may throw is embedded with `Except`; the network backend of the Gemini
engine is a parameter of `generate`, so each theorem quantifies over every
possible backend behaviour.
-/

namespace Leo

/-- A backend-agnostic chat turn (an OpenAI-style message dict):
`{"role": ..., "content": ..., "name": ...}`. `content` and `name` may be
absent or `None`, hence `Option`. -/
structure Message where
  role : String
  content : Option String
  name : Option String := none
  deriving Repr, DecidableEq

/-- A part of a Gemini `types.Content`: either a plain-text part or a
function-response part (as produced by `types.Part.from_text` and
`types.Part.from_function_response` in `_convert_messages`). -/
inductive GPart where
  | text (s : String)
  | functionResponse (name : String) (result : String)
  deriving Repr, DecidableEq

/-- Gemini `types.Content`: a role plus a list of parts. -/
structure GContent where
  role : String
  parts : List GPart
  deriving Repr, DecidableEq

/-- Python's `str.strip()`: remove leading and trailing whitespace.
Implemented structurally over the character list so that it evaluates by
`decide`. -/
def pyStrip (s : String) : String :=
  ⟨((s.data.dropWhile Char.isWhitespace).reverse.dropWhile
      Char.isWhitespace).reverse⟩

/-- In Python, `(raw_content or "").strip()`: missing or `None` content
becomes `""`, then whitespace is trimmed. -/
def stripContent (c : Option String) : String :=
  pyStrip (c.getD "")

/-- The per-turn loop body of `GeminiEngine._convert_messages`
(`src/agentic_models/gemini.py` lines 43-80): a `tool` turn always becomes a
user-role function-response content (empty text replaced by `"success"`);
any other turn is dropped when its stripped content is empty, and otherwise
becomes a text content whose role is `"model"` for `assistant` and `"user"`
otherwise. -/
def convertLoop : List Message → List GContent
  | [] => []
  | m :: rest =>
    let geminiRole := if m.role = "assistant" then "model" else "user"
    let textContent := stripContent m.content
    if m.role = "tool" then
      { role := "user",
        parts := [GPart.functionResponse (m.name.getD "tool")
                    (if textContent = "" then "success" else textContent)] }
        :: convertLoop rest
    else if textContent = "" then
      convertLoop rest
    else
      { role := geminiRole, parts := [GPart.text textContent] } :: convertLoop rest

/-- `GeminiEngine._convert_messages`: run the per-turn loop, then
("Gemini requires first turn to be user") relabel the first content's role
to `"user"` when it is not already `"user"`. -/
def convert_messages (messages : List Message) : List GContent :=
  match convertLoop messages with
  | [] => []
  | c :: rest =>
    if c.role ≠ "user" then { c with role := "user" } :: rest else c :: rest

/-- A `function_call` field carried by a part of a Gemini response
(`part.function_call`): a name and an optional argument mapping
(`fc.args` may be `None`). Argument values are embedded as strings. -/
structure FunctionCall where
  name : String
  args : Option (List (String × String))
  deriving Repr, DecidableEq

/-- A part of a Gemini response candidate's content; only its
`function_call` field is inspected by `extract_tool_calls`. -/
structure RespPart where
  function_call : Option FunctionCall
  deriving Repr, DecidableEq

/-- `candidate.content` of a Gemini response: may be `None`, or present
with a (possibly empty) list of parts. -/
structure RespContent where
  parts : List RespPart
  deriving Repr, DecidableEq

/-- One candidate of a Gemini response. -/
structure Candidate where
  content : Option RespContent
  deriving Repr, DecidableEq

/-- The outcome of reading `response.text` in Python: it may itself raise
(caught by `generate` and collapsed to `""`), give `None`, or give a
string. -/
inductive TextRead where
  | raises
  | value (t : Option String)
  deriving Repr, DecidableEq

/-- A raw Gemini backend response, as consumed by `generate` and
`extract_tool_calls`. `candidates` embeds `response.candidates`, with the
Python-falsy values `None` and `[]` both embedded as `[]` (the code treats
them identically: `if not self._last_response.candidates`). -/
structure GenResponse where
  textRes : TextRead
  candidates : List Candidate
  deriving Repr, DecidableEq

/-- A response carries no function call: every part of every candidate
(an absent `content` contributing no parts) has an empty `function_call`
field. -/
def GenResponse.noCalls (resp : GenResponse) : Bool :=
  resp.candidates.all fun cand =>
    ((cand.content.map RespContent.parts).getD []).all fun part =>
      part.function_call.isNone

/-- The state of a `GeminiEngine` instance: the credentials stored by
`__init__` and the `_last_response` slot. -/
structure GeminiEngine where
  model_name : String
  api_key : String
  last_response : Option GenResponse
  deriving Repr, DecidableEq

/-- `GeminiEngine.__init__` (`src/agentic_models/gemini.py` lines 15-25):
raises `ValueError` when `not model_name or not api_key` (the argument is
`None` or the empty string), otherwise stores the credentials and
initialises `_last_response = None`. -/
def GeminiEngine.mk? (model_name api_key : Option String) :
    Except String GeminiEngine :=
  if model_name.getD "" = "" ∨ api_key.getD "" = "" then
    .error "Gemini API key or model name missing"
  else
    .ok { model_name := model_name.getD "", api_key := api_key.getD "",
          last_response := none }

/-- A tool declaration passed through to the backend (opaque here: the
engine only forwards it inside the generation config). -/
structure ToolDecl where
  name : String
  deriving Repr, DecidableEq

/-- The generation config built by `generate`:
`types.GenerateContentConfig(temperature=0.4, tools=tools or None)` — an
empty or absent tool list is normalised to `None`. -/
structure GenConfig where
  tools : Option (List ToolDecl)
  deriving Repr, DecidableEq

/-- The outcome of the network call
`self.client.models.generate_content(...)`: either an exception
(`APIError` or any other `Exception`, both caught) or a raw response.
`generate` is parameterised by this outcome, so theorems quantify over
every backend behaviour. -/
def Backend := List GContent → GenConfig → Except Unit GenResponse

/-- `GeminiEngine.generate` (`src/agentic_models/gemini.py` lines 91-121):
convert the messages, build the config, call the backend. On a backend
exception, return `""` leaving `_last_response` unchanged (the assignment
is skipped). On success, store the response; reading `.text` yields the
trimmed text, or `""` when `.text` is `None` or raises. -/
def GeminiEngine.generate (e : GeminiEngine) (backend : Backend)
    (messages : List Message) (tools : Option (List ToolDecl)) :
    GeminiEngine × String :=
  let contents := convert_messages messages
  let config : GenConfig :=
    { tools := if (tools.getD []) = [] then none else tools }
  match backend contents config with
  | .error _ => (e, "")
  | .ok resp =>
    let e2 := { e with last_response := some resp }
    match resp.textRes with
    | .raises => (e2, "")
    | .value t => (e2, pyStrip (t.getD ""))

/-- A structured tool-call directive `{"name": ..., "arguments": ...}`. -/
structure ToolCall where
  name : String
  arguments : List (String × String)
  deriving Repr, DecidableEq

/-- `GeminiEngine.extract_tool_calls` (`src/agentic_models/gemini.py`
lines 126-154): reads the function calls out of the *stored* last
response; the `text` argument is ignored. Returns `[]` when there is no
stored response or it has no candidates; otherwise collects, across all
candidates with non-empty content parts, every part's `function_call`,
with `fc.args or {}` defaulting absent arguments to the empty mapping. -/
def GeminiEngine.extract_tool_calls (e : GeminiEngine) (text : String) :
    List ToolCall :=
  match e.last_response with
  | none => []
  | some resp =>
    if resp.candidates = [] then []
    else
      resp.candidates.flatMap fun cand =>
        match cand.content with
        | none => []
        | some content =>
          if content.parts = [] then []
          else
            content.parts.flatMap fun part =>
              match part.function_call with
              | none => []
              | some fc => [{ name := fc.name, arguments := fc.args.getD [] }]

/-- A model engine behind the uniform interface
`generate(messages, tools) -> text` / `extract_tool_calls(text) -> calls`.
The two concrete engines held by the routers are embedded as arbitrary
values of this type, so router theorems quantify over every engine
behaviour (the repository's tests substitute dummy engines the same way). -/
structure Engine where
  generate : List Message → Option (List ToolDecl) → String
  extract_tool_calls : String → List ToolCall

/-- `LLMRouter` (`src/agentic_models/router.py`): a mode string and the two
engines (`self.gemma`, `self.gemini`). -/
structure LLMRouter where
  mode : String
  gemma : Engine
  gemini : Engine

/-- `LLMRouter.generate` (`src/agentic_models/router.py` lines 20-40):
pinned modes dispatch to the pinned engine; in auto mode a truthy `tools`
(present and non-empty) dispatches to gemma, otherwise to gemini. -/
def LLMRouter.generate (r : LLMRouter) (messages : List Message)
    (tools : Option (List ToolDecl)) : String :=
  if r.mode = "gemma" then r.gemma.generate messages tools
  else if r.mode = "gemini" then r.gemini.generate messages tools
  else if (tools.getD []) ≠ [] then r.gemma.generate messages tools
  else r.gemini.generate messages tools

/-- `LLMRouter.extract_tool_calls` (`src/agentic_models/router.py` lines
42-58): pinned modes delegate to the pinned engine; in auto mode gemma's
extraction is used when non-empty, otherwise gemini's. -/
def LLMRouter.extract_tool_calls (r : LLMRouter) (raw_output : String) :
    List ToolCall :=
  if r.mode = "gemma" then r.gemma.extract_tool_calls raw_output
  else if r.mode = "gemini" then r.gemini.extract_tool_calls raw_output
  else
    let gemma_calls := r.gemma.extract_tool_calls raw_output
    if gemma_calls ≠ [] then gemma_calls
    else r.gemini.extract_tool_calls raw_output

/-- A structured (JSON-serializable) value returned by a tool callable. -/
inductive JsonValue where
  | str (s : String)
  | num (n : Int)
  | obj (fields : List (String × JsonValue))

/-- `ToolResult`: `{name, response}` — one per executed tool call. -/
structure ToolResult where
  name : String
  response : JsonValue

/-- The tool registry `tools_map`: tool name to callable. Embedded as an
association list with dictionary (first-match) lookup. -/
abbrev ToolsMap := List (String × (List (String × String) → JsonValue))

/-- `RouterResult`: the answer plus the debug trace
`{"debug": {"calls": ..., "data": ...}}`. -/
structure RouterResult where
  answer : String
  calls : List ToolCall
  data : List ToolResult

/-- Which concrete engine a router step selected. -/
inductive Pick where
  | gemma
  | gemini
  deriving Repr, DecidableEq

/-- Modelled from the spec: the `SELECT_DETECTOR` step of
`AgentRouter.handle_message` (`agentic_models/router.py`; the class is
absent from `src/`, only its tests and callers remain). A pinned mode
selects the pinned engine; in auto mode detection prefers the
tool-specialized engine (gemma) when the tool catalogue is non-empty and
the reasoning engine (gemini) otherwise. -/
def selectDetector (mode : String) (tools : List ToolDecl) : Pick :=
  if mode = "gemma" then .gemma
  else if mode = "gemini" then .gemini
  else if tools ≠ [] then .gemma
  else .gemini

/-- Modelled from the spec: the `SELECT_SYNTHESIZER` step of
`AgentRouter.handle_message` (absent from `src/`). A pinned mode selects
the pinned engine; in auto mode the reasoning preference always wins for
final synthesis. -/
def selectSynthesizer (mode : String) : Pick :=
  if mode = "gemma" then .gemma else .gemini

/-- The engine a pick resolves to. -/
def AgentRouterPick (gemma gemini : Engine) : Pick → Engine
  | .gemma => gemma
  | .gemini => gemini

/-- The other engine, used by `FALLBACK_SYNTHESIZE`. -/
def Pick.other : Pick → Pick
  | .gemma => .gemini
  | .gemini => .gemma

/-- Modelled from the spec: the `EXECUTE_TOOLS` step of
`AgentRouter.handle_message` (absent from `src/`). For each call in order,
look up the callable by name in the registry; if absent skip it (the batch
is not aborted); otherwise invoke it on the call's arguments and record
one `ToolResult`. -/
def executeTools (tools_map : ToolsMap) (calls : List ToolCall) :
    List ToolResult :=
  calls.filterMap fun c =>
    (tools_map.lookup c.name).map fun f =>
      { name := c.name, response := f c.arguments }

/-- Modelled from the spec: the conversation augmentation performed after
`EXECUTE_TOOLS` (absent from `src/`) — one `assistant` turn recording that
tool calls were requested, preceding one synthetic `tool` turn per result,
all appended to the original turns; when no call was detected the
conversation is handed to synthesis unchanged. -/
def augmentConversation (messages : List Message) (calls : List ToolCall)
    (results : List ToolResult) : List Message :=
  if calls = [] then messages
  else
    messages
      ++ [{ role := "assistant", content := some "Tool calls requested" }]
      ++ results.map fun res =>
        { role := "tool", content := some "Tool executed",
          name := some res.name }

/-- Modelled from the spec: `AgentRouter.handle_message(conversation,
tools, tools_map)` (`agentic_models/router.py`; absent from `src/`, only
its tests in `src/tests/test_agent_router.py` and callers in `src/main.py`,
`src/main_app.py` and `src/api/handlers.py` remain). The state machine
`SELECT_DETECTOR → DETECT_INTENT → (EXECUTE_TOOLS)? → SELECT_SYNTHESIZER →
SYNTHESIZE → (FALLBACK_SYNTHESIZE)? → DONE`: detection generates and
extracts calls, resolved calls are executed in order, synthesis runs on the
augmented conversation, an empty synthesis retries with the other engine,
and if that is also empty the detection text is the last-resort answer. -/
def handle_message (mode : String) (gemma gemini : Engine)
    (messages : List Message) (tools : List ToolDecl)
    (tools_map : ToolsMap) : RouterResult :=
  let detector := AgentRouterPick gemma gemini (selectDetector mode tools)
  let raw := detector.generate messages (some tools)
  let calls := detector.extract_tool_calls raw
  let data := executeTools tools_map calls
  let augmented := augmentConversation messages calls data
  let synthPick := selectSynthesizer mode
  let synthesizer := AgentRouterPick gemma gemini synthPick
  let primary := synthesizer.generate augmented (some tools)
  let answer :=
    if primary ≠ "" then primary
    else
      let fallbackEngine := AgentRouterPick gemma gemini synthPick.other
      let secondary := fallbackEngine.generate augmented (some tools)
      if secondary ≠ "" then secondary else raw
  { answer := answer, calls := calls, data := data }

/-- The verbatim text produced by the `DETECT_INTENT` stage of
`handle_message`. -/
def detectionText (mode : String) (gemma gemini : Engine)
    (messages : List Message) (tools : List ToolDecl) : String :=
  (AgentRouterPick gemma gemini (selectDetector mode tools)).generate
    messages (some tools)

/-- The tool calls extracted by the `DETECT_INTENT` stage of
`handle_message`. -/
def detectedCalls (mode : String) (gemma gemini : Engine)
    (messages : List Message) (tools : List ToolDecl) : List ToolCall :=
  (AgentRouterPick gemma gemini (selectDetector mode tools)).extract_tool_calls
    (detectionText mode gemma gemini messages tools)

/-- The augmented conversation handed to the synthesis stage of
`handle_message`. -/
def synthesisInput (mode : String) (gemma gemini : Engine)
    (messages : List Message) (tools : List ToolDecl)
    (tools_map : ToolsMap) : List Message :=
  let calls := detectedCalls mode gemma gemini messages tools
  augmentConversation messages calls (executeTools tools_map calls)

/-! ### Concrete engines used to instantiate router theorems -/

/-- A concrete engine that always answers `"A"` and extracts one call. -/
def engA : Engine :=
  { generate := fun _ _ => "A",
    extract_tool_calls := fun _ => [{ name := "a_tool", arguments := [] }] }

/-- A concrete engine that always answers `"B"` and extracts no call. -/
def engB : Engine :=
  { generate := fun _ _ => "B",
    extract_tool_calls := fun _ => [] }

/-- A concrete function call as found on a response part. -/
def weatherCall : FunctionCall :=
  { name := "get_current_weather",
    args := some [("location", "Ho Chi Minh City")] }

/-- A concrete successful backend response carrying one function call. -/
def respWithCall : GenResponse :=
  { textRes := .value (some "ok"),
    candidates :=
      [{ content := some { parts := [{ function_call := some weatherCall }] } }] }

/-- A concrete successful backend response carrying text and no function
call. -/
def respNoCall : GenResponse :=
  { textRes := .value (some "plain answer"),
    candidates := [{ content := some { parts := [{ function_call := none }] } }] }

/-- A backend whose call always succeeds with `respWithCall`. -/
def backendOk : Backend := fun _ _ => .ok respWithCall

/-- A backend whose call always raises (caught inside `generate`). -/
def backendFail : Backend := fun _ _ => .error ()

/-- A freshly constructed engine (the fallback branch is unreachable:
`mk?` succeeds on these credentials). -/
def freshEngine : GeminiEngine :=
  match GeminiEngine.mk? (some "gemini-pro") (some "key") with
  | .ok e => e
  | .error _ => { model_name := "", api_key := "", last_response := none }

/-- The engine state after one successful `generate` call. -/
def engineAfterSuccess : GeminiEngine :=
  (freshEngine.generate backendOk
    [{ role := "user", content := some "weather?" }] none).1

/-- The turns `_convert_messages` keeps: every `tool` turn, and any other
turn whose stripped content is non-empty. -/
def keptTurn (m : Message) : Bool :=
  m.role == "tool" || stripContent m.content != ""

/-- The per-turn mapping performed by `_convert_messages` on a turn it
keeps: a `tool` turn becomes a user-role function response (empty text
replaced by `"success"`), any other turn becomes a text content with role
`"model"` for `assistant` and `"user"` otherwise. -/
def mapTurn (m : Message) : GContent :=
  if m.role = "tool" then
    { role := "user",
      parts := [GPart.functionResponse (m.name.getD "tool")
        (if stripContent m.content = "" then "success"
         else stripContent m.content)] }
  else
    { role := if m.role = "assistant" then "model" else "user",
      parts := [GPart.text (stripContent m.content)] }

/-- A detection engine that tags three tool calls, one of them naming an
unregistered tool. -/
def gemmaDetect : Engine :=
  { generate := fun _ _ => "TOOL_CALL_TAG",
    extract_tool_calls := fun t =>
      if t = "TOOL_CALL_TAG" then
        [{ name := "get_current_weather",
           arguments := [("location", "Ho Chi Minh City")] },
         { name := "unknown_tool", arguments := [] },
         { name := "send_email", arguments := [] }]
      else [] }

/-- A synthesis engine with a fixed non-empty reply. -/
def geminiSynth : Engine :=
  { generate := fun _ _ => "Final synthesized reply",
    extract_tool_calls := fun _ => [] }

/-- A registry with two registered tools. -/
def wToolsMap : ToolsMap :=
  [("get_current_weather",
    fun _ => JsonValue.obj [("status", JsonValue.str "success")]),
   ("send_email", fun _ => JsonValue.str "sent")]

/-- An engine that always returns empty text and no calls (a failing
backend behind the uniform interface). -/
def emptyEngine : Engine :=
  { generate := fun _ _ => "", extract_tool_calls := fun _ => [] }

/-- An engine whose answer is the fixed text `"Fallback answer"`. -/
def gemmaFallback : Engine :=
  { generate := fun _ _ => "Fallback answer",
    extract_tool_calls := fun _ => [] }

end Leo

namespace Leo

/-- Claim C3: for every message list and tool list, `LLMRouter.generate` in
mode `"auto"` dispatches to the tool-specialized gemma engine exactly when
the supplied tool catalogue is truthy (present and non-empty) and to the
gemini engine otherwise, and in a pinned mode it always dispatches to the
pinned engine regardless of the tool catalogue. -/
theorem llmrouter_generate_dispatch (r : LLMRouter) (messages : List Message)
    (tools : Option (List ToolDecl)) :
    (r.mode = "auto" →
      r.generate messages tools =
        if (tools.getD []) ≠ [] then r.gemma.generate messages tools
        else r.gemini.generate messages tools) ∧
    (r.mode = "gemma" →
      r.generate messages tools = r.gemma.generate messages tools) ∧
    (r.mode = "gemini" →
      r.generate messages tools = r.gemini.generate messages tools) := by
  refine ⟨fun h => ?_, fun h => ?_, fun h => ?_⟩ <;>
    simp [LLMRouter.generate, h]

/-- Witness for C3: in auto mode with a non-empty catalogue the gemma
engine's answer is returned, even though the gemini engine would answer
differently. -/
theorem llmrouter_generate_dispatch_witness :
    LLMRouter.generate { mode := "auto", gemma := engA, gemini := engB }
        [] (some [{ name := "w" }]) = "A" := by
  have h :=
    (llmrouter_generate_dispatch { mode := "auto", gemma := engA, gemini := engB }
      [] (some [{ name := "w" }])).1 rfl
  simpa [engA] using h

/-- Claim C10: in mode `"auto"`, `LLMRouter.extract_tool_calls` returns the
gemma engine's extracted call list whenever it is non-empty, and the gemini
engine's list only when the gemma list is empty. -/
theorem llmrouter_extract_auto_shadowing (r : LLMRouter) (raw : String)
    (h : r.mode = "auto") :
    (r.gemma.extract_tool_calls raw ≠ [] →
      r.extract_tool_calls raw = r.gemma.extract_tool_calls raw) ∧
    (r.gemma.extract_tool_calls raw = [] →
      r.extract_tool_calls raw = r.gemini.extract_tool_calls raw) := by
  constructor <;> intro hg <;>
    simp [LLMRouter.extract_tool_calls, h, hg]

/-- Witness for C10: with a gemma engine extracting one call and a gemini
engine extracting none, auto-mode extraction returns the gemma call. -/
theorem llmrouter_extract_auto_shadowing_witness :
    LLMRouter.extract_tool_calls { mode := "auto", gemma := engA, gemini := engB }
        "raw" = [{ name := "a_tool", arguments := [] }] := by
  have h :=
    (llmrouter_extract_auto_shadowing
      { mode := "auto", gemma := engA, gemini := engB } "raw" rfl).1
      (by simp [engA])
  simpa [engA] using h

theorem flatMap_nil_of_forall {α β : Type} (l : List α) (f : α → List β)
    (h : ∀ a ∈ l, f a = []) : l.flatMap f = [] := by
  induction l with
  | nil => rfl
  | cons a rest ih =>
    rw [List.flatMap_cons, h a (List.mem_cons_self a rest),
      ih (fun x hx => h x (List.mem_cons_of_mem a hx))]
    rfl

/-- Claim C7: `extract_tool_calls` returns the empty list and never raises
(the embedded function is total) both on a freshly constructed engine
(before any `generate` call) and when the stored last response contains no
function call; and for every engine the text argument is ignored — the
result is read from the stored last response only. -/
theorem extract_tool_calls_before_generate (model api : Option String)
    (e0 : GeminiEngine) (h : GeminiEngine.mk? model api = .ok e0)
    (t : String) :
    e0.extract_tool_calls t = [] ∧
    (∀ (e : GeminiEngine) (resp : GenResponse) (t2 : String),
      e.last_response = some resp → resp.noCalls = true →
      e.extract_tool_calls t2 = []) ∧
    ∀ (e : GeminiEngine) (t1 t2 : String),
      e.extract_tool_calls t1 = e.extract_tool_calls t2 := by
  refine ⟨?_, ?_, fun e t1 t2 => rfl⟩
  · unfold GeminiEngine.mk? at h
    split at h
    · exact absurd h (by simp)
    · cases h
      rfl
  · intro e resp t2 hlast hnone
    simp only [GeminiEngine.extract_tool_calls, hlast]
    by_cases hc : resp.candidates = []
    · simp [hc]
    · rw [if_neg hc]
      apply flatMap_nil_of_forall
      intro cand hcand
      have hcall := (List.all_eq_true.mp hnone) cand hcand
      cases hcontent : cand.content with
      | none => rfl
      | some content =>
        rw [hcontent] at hcall
        simp only [Option.map_some', Option.getD_some] at hcall
        by_cases hp : content.parts = []
        · simp [hp]
        · simp only [show (content.parts = []) = False by simp [hp],
            if_false]
          apply flatMap_nil_of_forall
          intro part hpart
          have hno := (List.all_eq_true.mp hcall) part hpart
          cases hfc : part.function_call with
          | none => rfl
          | some fc => rw [hfc] at hno; simp at hno

/-- Witness for C7: a concretely constructed engine extracts no call
before any generation, and an engine holding a stored text-only response
(no function call) also extracts nothing. -/
theorem extract_tool_calls_before_generate_witness :
    GeminiEngine.extract_tool_calls
      { model_name := "gemini-pro", api_key := "k", last_response := none }
      "some text" = [] ∧
    GeminiEngine.extract_tool_calls
      { model_name := "gemini-pro", api_key := "k",
        last_response := some respNoCall }
      "some text" = [] := by
  have h :=
    extract_tool_calls_before_generate (some "gemini-pro") (some "k")
      { model_name := "gemini-pro", api_key := "k", last_response := none }
      rfl "some text"
  exact ⟨h.1,
    h.2.1 { model_name := "gemini-pro", api_key := "k",
            last_response := some respNoCall }
      respNoCall "some text" rfl (by decide)⟩

/-- Claim C9: `GeminiEngine.__init__` fails exactly when the model name or
API key is missing (`None` or empty); when both are present it succeeds,
storing the credentials with no deferred check — the constructed engine
carries non-empty credentials and a clean `_last_response`. -/
theorem gemini_init_fail_fast (model api : Option String) :
    ((model.getD "" = "" ∨ api.getD "" = "") ↔
      GeminiEngine.mk? model api =
        .error "Gemini API key or model name missing") ∧
    (∀ e, GeminiEngine.mk? model api = .ok e →
      e.model_name = model.getD "" ∧ e.api_key = api.getD "" ∧
      e.model_name ≠ "" ∧ e.api_key ≠ "" ∧ e.last_response = none) := by
  constructor
  · unfold GeminiEngine.mk?
    split
    · next hcond => simp [hcond]
    · next hcond => simp [hcond]
  · intro e h
    unfold GeminiEngine.mk? at h
    split at h
    · exact absurd h (by simp)
    · next hcond =>
      cases h
      push_neg at hcond
      exact ⟨rfl, rfl, hcond.1, hcond.2, rfl⟩

/-- Witness for C9: a missing API key is rejected at construction, and a
fully credentialed construction succeeds with the credentials stored. -/
theorem gemini_init_fail_fast_witness :
    GeminiEngine.mk? (some "gemini-pro") none =
      .error "Gemini API key or model name missing" ∧
    GeminiEngine.mk? (some "gemini-pro") (some "k") =
      .ok { model_name := "gemini-pro", api_key := "k",
            last_response := none } :=
  ⟨(gemini_init_fail_fast (some "gemini-pro") none).1.mp (by simp), rfl⟩

/-- Claim C4: `GeminiEngine.generate` never raises (the embedded function
is total over every backend behaviour) and its text output is: the empty
string when the backend call fails, the empty string when reading the
response text raises or yields no text segment, and otherwise the response
text with leading and trailing whitespace trimmed. -/
theorem gemini_generate_text_contract (e : GeminiEngine) (backend : Backend)
    (messages : List Message) (tools : Option (List ToolDecl)) :
    let contents := convert_messages messages
    let config : GenConfig :=
      { tools := if (tools.getD []) = [] then none else tools }
    (∀ err, backend contents config = .error err →
      (e.generate backend messages tools).2 = "") ∧
    (∀ resp, backend contents config = .ok resp →
      (resp.textRes = .raises → (e.generate backend messages tools).2 = "") ∧
      (resp.textRes = .value none →
        (e.generate backend messages tools).2 = "") ∧
      (∀ s, resp.textRes = .value (some s) →
        (e.generate backend messages tools).2 = pyStrip s)) := by
  refine ⟨fun err herr => ?_, fun resp hok => ⟨fun ht => ?_, fun ht => ?_,
    fun s ht => ?_⟩⟩ <;>
    first
      | simp [GeminiEngine.generate, herr]
      | simp [GeminiEngine.generate, hok, ht, pyStrip]

/-- Witness for C4: a backend returning a padded text yields the trimmed
text, via the contract theorem at a concrete response. -/
theorem gemini_generate_text_contract_witness :
    (GeminiEngine.generate
      { model_name := "m", api_key := "k", last_response := none }
      (fun _ _ => .ok { textRes := .value (some "  hello  "),
                        candidates := [] })
      [] none).2 = "hello" := by
  have h :=
    ((gemini_generate_text_contract
      { model_name := "m", api_key := "k", last_response := none }
      (fun _ _ => .ok { textRes := .value (some "  hello  "),
                        candidates := [] })
      [] none).2
      { textRes := .value (some "  hello  "), candidates := [] } rfl).2.2
      "  hello  " rfl
  exact h.trans (by decide)

/-- Counterexample to claim C6 as stated: after a successful `generate`
stored a response containing a function call, a failing `generate` returns
the empty string, yet the subsequent `extract_tool_calls` is NOT empty —
it still returns the earlier response's call, because the failing call
left `_last_response` unchanged. -/
theorem extract_tool_calls_stale_after_failure :
    (engineAfterSuccess.generate backendFail
      [{ role := "user", content := some "again?" }] none).2 = "" ∧
    ((engineAfterSuccess.generate backendFail
        [{ role := "user", content := some "again?" }] none).1
      ).extract_tool_calls "" =
      [{ name := "get_current_weather",
         arguments := [("location", "Ho Chi Minh City")] }] := by
  constructor <;> rfl

/-- Claim C6 (amended): a failing `generate` call returns the empty string
and never raises, but it leaves the engine state — in particular the
stored `_last_response` — unchanged; therefore a subsequent
`extract_tool_calls` returns the empty list exactly when no earlier
`generate` call had stored a response, and otherwise returns the calls of
the most recent successfully stored response. -/
theorem gemini_generate_failure_preserves_state (e : GeminiEngine)
    (backend : Backend) (messages : List Message)
    (tools : Option (List ToolDecl))
    (h : ∀ contents config, backend contents config = .error ()) :
    e.generate backend messages tools = (e, "") ∧
    (∀ t, ((e.generate backend messages tools).1).extract_tool_calls t =
      e.extract_tool_calls t) ∧
    (e.last_response = none →
      ∀ t, ((e.generate backend messages tools).1).extract_tool_calls t
        = []) := by
  have hgen : e.generate backend messages tools = (e, "") := by
    simp [GeminiEngine.generate, h]
  refine ⟨hgen, fun t => by rw [hgen], fun hnone t => ?_⟩
  rw [hgen]
  simp [GeminiEngine.extract_tool_calls, hnone]

/-- Witness for C6 (amended): a failing call on a fresh engine yields empty
text and an empty extraction. -/
theorem gemini_generate_failure_preserves_state_witness :
    freshEngine.generate backendFail
      [{ role := "user", content := some "hi" }] none = (freshEngine, "") ∧
    ((freshEngine.generate backendFail
        [{ role := "user", content := some "hi" }] none).1
      ).extract_tool_calls "" = [] := by
  have h :=
    gemini_generate_failure_preserves_state freshEngine backendFail
      [{ role := "user", content := some "hi" }] none
      (fun _ _ => rfl)
  exact ⟨h.1, h.2.2 rfl ""⟩

theorem convertLoop_filter (messages : List Message) :
    convertLoop (messages.filter keptTurn) = convertLoop messages := by
  induction messages with
  | nil => rfl
  | cons m rest ih =>
    by_cases htool : m.role = "tool"
    · have hk : keptTurn m = true := by simp [keptTurn, htool]
      rw [List.filter_cons_of_pos hk]
      simp only [convertLoop, htool, if_pos, ih]
    · by_cases hempty : stripContent m.content = ""
      · have hk : ¬ (keptTurn m = true) := by
          simp [keptTurn, htool, hempty]
        rw [List.filter_cons_of_neg hk]
        conv_rhs => rw [convertLoop]
        simp only [htool, hempty, if_false, if_pos, if_neg]
        · exact ih
      · have hk : keptTurn m = true := by simp [keptTurn, hempty]
        rw [List.filter_cons_of_pos hk]
        simp only [convertLoop, htool, hempty, ih]

theorem convertLoop_length (messages : List Message) :
    (convertLoop messages).length = (messages.filter keptTurn).length := by
  induction messages with
  | nil => rfl
  | cons m rest ih =>
    by_cases htool : m.role = "tool"
    · have hk : keptTurn m = true := by simp [keptTurn, htool]
      rw [List.filter_cons_of_pos hk]
      simp only [convertLoop, htool, if_pos, List.length_cons, ih]
    · by_cases hempty : stripContent m.content = ""
      · have hk : ¬ (keptTurn m = true) := by
          simp [keptTurn, htool, hempty]
        rw [List.filter_cons_of_neg hk]
        conv_lhs => rw [convertLoop]
        simp only [htool, hempty, if_false, if_pos, if_neg]
        · exact ih
      · have hk : keptTurn m = true := by simp [keptTurn, hempty]
        rw [List.filter_cons_of_pos hk]
        simp [convertLoop, htool, hempty, ih]

theorem convert_messages_length_eq (messages : List Message) :
    (convert_messages messages).length = (convertLoop messages).length := by
  unfold convert_messages
  cases h : convertLoop messages with
  | nil => rfl
  | cons c rest =>
    split
    · next heq => simp at heq
    · next c2 rest2 heq =>
      cases heq
      split <;> simp

/-- Counterexample to claim C5 as stated: a `tool`-role turn with empty
content is NOT absent from the adapter's output — it is serialized as a
function-response content (with the placeholder result `"success"`). -/
theorem convert_messages_empty_tool_turn_kept :
    convert_messages
        [{ role := "tool", content := some "",
           name := some "get_current_weather" }] =
      [{ role := "user",
         parts := [GPart.functionResponse "get_current_weather"
                     "success"] }] ∧
    convert_messages
        [{ role := "tool", content := some "",
           name := some "get_current_weather" }] ≠ [] := by
  constructor <;> decide

/-- Claim C5 (amended): every turn whose content is null or empty *and
whose role is not `tool`* is absent from the adapter's output — filtering
those turns out beforehand does not change the output, and the output has
exactly one content per kept turn; a `tool`-role turn is always
serialized, even with empty content. -/
theorem convert_messages_drops_empty_nontool_turns
    (messages : List Message) :
    convert_messages messages =
      convert_messages (messages.filter keptTurn) ∧
    (convert_messages messages).length =
      (messages.filter keptTurn).length := by
  constructor
  · unfold convert_messages
    rw [convertLoop_filter]
  · rw [convert_messages_length_eq, convertLoop_length]

theorem convertLoop_eq_map (messages : List Message)
    (h : ∀ m ∈ messages, m.role = "tool" ∨ stripContent m.content ≠ "") :
    convertLoop messages = messages.map mapTurn := by
  induction messages with
  | nil => rfl
  | cons m rest ih =>
    have hm := h m (List.mem_cons_self m rest)
    have hrest : ∀ x ∈ rest, x.role = "tool" ∨ stripContent x.content ≠ "" :=
      fun x hx => h x (List.mem_cons_of_mem m hx)
    rcases hm with htool | hne
    · simp [convertLoop, mapTurn, htool, ih hrest]
    · by_cases htool : m.role = "tool"
      · simp [convertLoop, mapTurn, htool, ih hrest]
      · simp [convertLoop, mapTurn, htool, hne, ih hrest]

/-- Claim C8: on a conversation of non-empty-content turns the adapter
preserves the number and relative order of the turns, starts with a
`"user"`-role turn, relabels at most the first turn's role (its parts are
untouched, every later turn is exactly the per-turn image), and performs no
relabel at all when the first mapped turn is already user-authored. -/
theorem convert_messages_first_turn_user (messages : List Message)
    (hne : messages ≠ [])
    (h : ∀ m ∈ messages, stripContent m.content ≠ "") :
    (convert_messages messages).length = messages.length ∧
    ((convert_messages messages).head?.map GContent.role) = some "user" ∧
    (convert_messages messages).tail = (messages.map mapTurn).tail ∧
    ((convert_messages messages).head?.map GContent.parts) =
      ((messages.map mapTurn).head?.map GContent.parts) ∧
    ((messages.map mapTurn).head?.map GContent.role = some "user" →
      convert_messages messages = messages.map mapTurn) := by
  have hloop : convertLoop messages = messages.map mapTurn :=
    convertLoop_eq_map messages (fun m hm => Or.inr (h m hm))
  cases messages with
  | nil => exact absurd rfl hne
  | cons m rest =>
    unfold convert_messages
    rw [hloop]
    simp only [List.map_cons]
    by_cases hu : (mapTurn m).role = "user"
    · simp [hu]
    · simp [hu]

/-- Witness for C8: a two-turn conversation starting with an assistant
turn is adapted to two turns whose first role is `"user"`. -/
theorem convert_messages_first_turn_user_witness :
    (convert_messages
        [{ role := "assistant", content := some "draft" },
         { role := "user", content := some "hi" }]).length = 2 ∧
    ((convert_messages
        [{ role := "assistant", content := some "draft" },
         { role := "user", content := some "hi" }]).head?.map
      GContent.role) = some "user" := by
  have h :=
    convert_messages_first_turn_user
      [{ role := "assistant", content := some "draft" },
       { role := "user", content := some "hi" }]
      (by decide) (by decide)
  exact ⟨h.1, h.2.1⟩

theorem executeTools_names (tools_map : ToolsMap) (calls : List ToolCall) :
    (executeTools tools_map calls).map ToolResult.name =
      (calls.filter fun c => (tools_map.lookup c.name).isSome).map
        ToolCall.name := by
  induction calls with
  | nil => rfl
  | cons c rest ih =>
    cases hl : tools_map.lookup c.name with
    | none =>
      simp [executeTools, List.filterMap_cons, List.filter_cons, hl] at ih ⊢
      exact ih
    | some f =>
      simp [executeTools, List.filterMap_cons, List.filter_cons, hl] at ih ⊢
      exact ih

theorem executeTools_mem (tools_map : ToolsMap) (calls : List ToolCall)
    (res : ToolResult) (hres : res ∈ executeTools tools_map calls) :
    ∃ c ∈ calls, ∃ f, tools_map.lookup c.name = some f ∧
      res.name = c.name ∧ res.response = f c.arguments := by
  unfold executeTools at hres
  rw [List.mem_filterMap] at hres
  obtain ⟨c, hc, hf⟩ := hres
  cases hl : tools_map.lookup c.name with
  | none => rw [hl] at hf; simp at hf
  | some f =>
    rw [hl] at hf
    simp only [Option.map_some', Option.some.injEq] at hf
    exact ⟨c, hc, f, hl, by rw [← hf], by rw [← hf]⟩

/-- Claim C2: if detection yields `N` tool calls of which `M` name
distinct registered tools, `handle_message`'s execute step produces
exactly `M` results, in the original relative order of their corresponding
calls, each result coming from the registered callable applied to the
call's arguments; unresolved calls are skipped without aborting (the
embedded step is total), and the returned debug trace still lists all `N`
calls. -/
theorem handle_message_execute_tools_shape (mode : String)
    (gemma gemini : Engine) (messages : List Message)
    (tools : List ToolDecl) (tools_map : ToolsMap) (N M : ℕ)
    (hN : (detectedCalls mode gemma gemini messages tools).length = N)
    (hM : ((detectedCalls mode gemma gemini messages tools).filter
        (fun c => (tools_map.lookup c.name).isSome)).length = M)
    (hdistinct : (((detectedCalls mode gemma gemini messages tools).filter
        (fun c => (tools_map.lookup c.name).isSome)).map
        ToolCall.name).Nodup) :
    (handle_message mode gemma gemini messages tools tools_map).calls =
      detectedCalls mode gemma gemini messages tools ∧
    (handle_message mode gemma gemini messages tools tools_map).calls.length
      = N ∧
    (handle_message mode gemma gemini messages tools tools_map).data.length
      = M ∧
    (handle_message mode gemma gemini messages tools tools_map).data.map
        ToolResult.name =
      ((detectedCalls mode gemma gemini messages tools).filter
        (fun c => (tools_map.lookup c.name).isSome)).map ToolCall.name ∧
    ∀ res ∈ (handle_message mode gemma gemini messages tools tools_map).data,
      ∃ c ∈ (handle_message mode gemma gemini messages tools tools_map).calls,
        ∃ f, tools_map.lookup c.name = some f ∧
          res.name = c.name ∧ res.response = f c.arguments := by
  have hcalls :
      (handle_message mode gemma gemini messages tools tools_map).calls =
        detectedCalls mode gemma gemini messages tools := rfl
  have hdata :
      (handle_message mode gemma gemini messages tools tools_map).data =
        executeTools tools_map
          (detectedCalls mode gemma gemini messages tools) := rfl
  refine ⟨hcalls, by rw [hcalls, hN], ?_, ?_, ?_⟩
  · have hlen := congrArg List.length
      (executeTools_names tools_map
        (detectedCalls mode gemma gemini messages tools))
    simp only [List.length_map] at hlen
    rw [hdata, hlen, hM]
  · rw [hdata]
    exact executeTools_names tools_map _
  · intro res hres
    rw [hdata] at hres
    obtain ⟨c, hc, f, hf, hn, hr⟩ := executeTools_mem tools_map _ res hres
    exact ⟨c, by rw [hcalls]; exact hc, f, hf, hn, hr⟩

/-- Witness for C2: three detected calls with one unregistered tool yield
two results and a three-entry call trace. -/
theorem handle_message_execute_tools_shape_witness :
    (handle_message "auto" gemmaDetect geminiSynth
      [{ role := "user", content := some "weather?" }]
      [{ name := "get_current_weather" }] wToolsMap).calls.length = 3 ∧
    (handle_message "auto" gemmaDetect geminiSynth
      [{ role := "user", content := some "weather?" }]
      [{ name := "get_current_weather" }] wToolsMap).data.length = 2 := by
  have h :=
    handle_message_execute_tools_shape "auto" gemmaDetect geminiSynth
      [{ role := "user", content := some "weather?" }]
      [{ name := "get_current_weather" }] wToolsMap 3 2
      (by decide) (by decide) (by decide)
  exact ⟨h.2.1, h.2.2.1⟩

/-- Claim C1: when the primary synthesis engine returns empty text,
`handle_message` retries with the other engine on the same augmented
conversation and returns its non-empty text; when that too is empty it
returns the detection stage's verbatim text — so the answer is non-empty
whenever any stage (detection, synthesis, or fallback synthesis) produced
non-empty text. -/
theorem handle_message_fallback_chain (mode : String)
    (gemma gemini : Engine) (messages : List Message)
    (tools : List ToolDecl) (tools_map : ToolsMap) :
    let raw := detectionText mode gemma gemini messages tools
    let augmented := synthesisInput mode gemma gemini messages tools tools_map
    let primary := (AgentRouterPick gemma gemini
      (selectSynthesizer mode)).generate augmented (some tools)
    let secondary := (AgentRouterPick gemma gemini
      (Pick.other (selectSynthesizer mode))).generate augmented (some tools)
    let r := handle_message mode gemma gemini messages tools tools_map
    (primary ≠ "" → r.answer = primary) ∧
    (primary = "" → secondary ≠ "" → r.answer = secondary) ∧
    (primary = "" → secondary = "" → r.answer = raw) ∧
    ((raw ≠ "" ∨ primary ≠ "" ∨ secondary ≠ "") → r.answer ≠ "") := by
  intro raw augmented primary secondary r
  have hr : r.answer =
      if primary ≠ "" then primary
      else if secondary ≠ "" then secondary else raw := rfl
  refine ⟨fun h1 => by rw [hr, if_pos h1],
    fun h1 h2 => by rw [hr, if_neg (by simpa using h1), if_pos h2],
    fun h1 h2 => by
      rw [hr, if_neg (by simpa using h1), if_neg (by simpa using h2)],
    ?_⟩
  intro h
  by_cases hp : primary = ""
  · by_cases hs : secondary = ""
    · rw [hr, if_neg (by simpa using hp), if_neg (by simpa using hs)]
      rcases h with h | h | h
      · exact h
      · exact absurd hp h
      · exact absurd hs h
    · rw [hr, if_neg (by simpa using hp), if_pos hs]
      exact hs
  · rw [hr, if_pos hp]
    exact hp

/-- Witness for C1: with an empty-text primary synthesizer and a fallback
engine answering `"Fallback answer"`, the router's answer is
`"Fallback answer"`. -/
theorem handle_message_fallback_chain_witness :
    (handle_message "auto" gemmaFallback emptyEngine
      [{ role := "user", content := some "q" }] [] []).answer =
      "Fallback answer" := by
  have h :=
    (handle_message_fallback_chain "auto" gemmaFallback emptyEngine
      [{ role := "user", content := some "q" }] [] []).2.1
      (by decide) (by decide)
  exact h.trans (by decide)

end Leo
